import Mathlib

/-!
# The barcode catalogue client (`src/services/apiClient.js`)

A shallow embedding of the `ApiClient` class and a verification of its contract.

Conventions of the embedding.

* Barcodes, names, URLs and endpoints are strings, as the JSDoc annotations and the data model
  declare; a property of such a type that may be absent (`undefined`) or `null` is an `Option`,
  and its truthiness is `truthyValue`: absent, `null` and the empty string are falsy.
* The token is a `JsValue`.  The JSDoc of `setAuthToken` asks for a string, but `login` stores
  the `access_token` of the parsed body whatever its type, and `getHeaders` calls `substring` on
  any truthy token, so the type of the token decides whether a request raises.
* A method returns a `Completion`: it returns a value or it raises; for an `async` method the
  promise resolves or rejects.
* The client object is a record `ApiClient`; a method that assigns to `this` returns the new record.
* Everything outside the client that a method touches (the transport calls it issues,
  `localStorage`, the events dispatched on `window`, the console) is the record `World`, passed in
  and returned.
* The transport `fetch` is a parameter: a function from the URL and the request options to the
  outcome of the call, which is a thrown value or a response with a status and a body that either
  parses or throws.
* Strings are sequences of Unicode characters.  The separator `/` and the endpoint patterns are
  ASCII, so `includes`, `split` and `===` agree with their UTF-16 originals; lone surrogates are
  not represented.
* The `async` methods are run to completion; the 300 ms delay of the simulation is not modelled.
-/

set_option autoImplicit false

/-! ## Strings -/

/-- A value that is absent, `null`, or a string, tested for truthiness: the value itself when it
is truthy (a non-empty string), `none` when it is falsy. -/
def truthyValue : Option String → Option String
  | some s => if s = "" then none else some s
  | none => none

/-- JavaScript `s.includes(pat)` on lists of characters: `pat` starts at some position of `s`. -/
def includesChars : List Char → List Char → Bool
  | [], pat => pat.isPrefixOf []
  | c :: cs, pat => pat.isPrefixOf (c :: cs) || includesChars cs pat

/-- JavaScript `s.includes(pat)`. -/
def includes (s pat : String) : Bool :=
  includesChars s.data pat.data

/-- JavaScript `s.split(sep)` on lists of characters, for a one-character separator. -/
def splitChars (sep : Char) : List Char → List (List Char)
  | [] => [[]]
  | c :: cs =>
    if c = sep then [] :: splitChars sep cs
    else
      match splitChars sep cs with
      | [] => [[c]]
      | seg :: rest => (c :: seg) :: rest

/-- JavaScript `s.split(sep)` for a one-character separator. -/
def split (s : String) (sep : Char) : List String :=
  (splitChars sep s.data).map String.mk

/-- JavaScript `xs.pop()`, as far as its value goes: the last element, `undefined` on the empty
array. -/
def pop {α : Type} (xs : List α) : Option α :=
  xs.getLast?

/-! ## Data model -/

/-- A record of the fixture store, `{ barcode, sku_name }`. -/
structure ProductRecord where
  barcode : String
  sku_name : String
deriving DecidableEq, Repr

/-- The argument of `addLocalProduct`: an object whose `barcode` and `sku_name` may be absent and
which may carry other properties. -/
structure ProductArg where
  barcode : Option String
  sku_name : Option String
  extra : List (String × String)
deriving DecidableEq, Repr

/-- A plain object with string-valued properties, such as the `user` of a token payload. -/
abbrev JsObject := List (String × String)

/-- The values a token can be: what `JSON.parse` yields for the `access_token` of a body, and
`undefined` for an absent property.  Numbers are the integers. -/
inductive JsValue where
  | undefined
  | null
  | bool (b : Bool)
  | num (n : Int)
  | str (s : String)
  | obj (props : JsObject)
deriving DecidableEq, Repr

/-- Truthiness: `undefined`, `null`, `false`, `0` and the empty string are falsy. -/
def JsValue.truthy : JsValue → Bool
  | .undefined => false
  | .null => false
  | .bool b => b
  | .num n => n != 0
  | .str s => s != ""
  | .obj _ => true

/-- The tokens of the data model, a string or `null`, and the other falsy values: a token that is
a string whenever it is truthy. -/
def JsValue.stringOrFalsy : JsValue → Bool
  | .str _ => true
  | v => !v.truthy

/-- How a call ends: it returns a value, or it raises the error of the given text. -/
inductive Completion (α : Type) where
  | returned (value : α)
  | raised (error : String)
deriving DecidableEq, Repr

/-- A parsed JSON object as the client sees it: the four properties it reads.  For `barcode`,
`sku_name` and `user`, `none` is an absent property. -/
structure Payload where
  barcode : Option String
  sku_name : Option String
  access_token : JsValue
  user : Option JsObject
deriving DecidableEq, Repr

/-- The result shape of `getProduct`, `{ barcode, name }`. -/
structure Product where
  barcode : Option String
  name : Option String
deriving DecidableEq, Repr

/-- The result shape of `login`, `{ token, user }`. -/
structure AuthResult where
  token : JsValue
  user : JsObject
deriving DecidableEq, Repr

/-- A header mapping, in insertion order. -/
abbrev Headers := List (String × String)

/-- The options object handed to `apiRequest` and to `fetch`.  For `headers`, `none` is an object
without that property and `some none` an object with the own property `headers: undefined`; the
two differ under the object spread of `apiRequest`.  The `body` is the object given to
`JSON.stringify`; the serialised text is not modelled. -/
structure RequestOptions where
  method : Option String
  headers : Option (Option Headers)
  body : Option JsObject
deriving DecidableEq, Repr

/-- A thrown value, as far as the `catch` block of `apiRequest` tells: a value whose `message`
can be read, or `null` or `undefined`, on which reading `message` raises. -/
inductive Thrown where
  | error (message : String)
  | nullish
deriving DecidableEq, Repr

/-- What awaiting `response.json()` does: it throws, or yields the parsed body, `none` being the
JSON value `null`. -/
inductive BodyOutcome where
  | invalid (thrown : Thrown)
  | parsed (data : Option Payload)
deriving DecidableEq, Repr

/-- What awaiting `fetch(url, options)` does: it throws, or yields a response. -/
inductive FetchOutcome where
  | failure (thrown : Thrown)
  | response (status : Nat) (body : BodyOutcome)
deriving DecidableEq, Repr

/-- The transport. -/
abbrev Fetch := String → RequestOptions → FetchOutcome

/-- Console levels. -/
inductive LogLevel where
  | log
  | warn
  | error
deriving DecidableEq, Repr

/-- The surroundings of the client. -/
structure World where
  /-- the calls made to `fetch`, oldest first -/
  requests : List (String × RequestOptions)
  /-- the entries of `localStorage` -/
  localStorage : List (String × String)
  /-- the names of the events dispatched on `window`, oldest first -/
  events : List String
  /-- the console lines, oldest first: the level and the first argument, the further arguments
  being left out -/
  console : List (LogLevel × String)
deriving DecidableEq, Repr

namespace World

/-- One console line. -/
def print (w : World) (level : LogLevel) (text : String) : World :=
  { w with console := w.console ++ [(level, text)] }

/-- Call `localStorage.removeItem(key)`. -/
def removeItem (w : World) (key : String) : World :=
  { w with localStorage := w.localStorage.filter (fun e => e.1 != key) }

/-- Call `window.dispatchEvent(new CustomEvent(name))`. -/
def dispatchEvent (w : World) (name : String) : World :=
  { w with events := w.events ++ [name] }

/-- A call of `fetch` is recorded. -/
def request (w : World) (url : String) (options : RequestOptions) : World :=
  { w with requests := w.requests ++ [(url, options)] }

end World

/-- The client object. -/
structure ApiClient where
  baseUrl : String
  authToken : JsValue
  localMode : Bool
  sampleProducts : List ProductRecord
deriving DecidableEq, Repr

/-- The seed list of the constructor. -/
def seedProducts : List ProductRecord :=
  [ ⟨"4607027662161", "Milk 3.2%"⟩,
    ⟨"4607027662987", "Cheese 45%"⟩,
    ⟨"4607027661123", "Bread White"⟩,
    ⟨"4607027664526", "Eggs 10pcs"⟩,
    ⟨"4607027662345", "Yogurt Strawberry"⟩,
    ⟨"4607027664981", "Water 1.5L"⟩,
    ⟨"4607027663782", "Juice Orange 1L"⟩,
    ⟨"4607027665698", "Chocolate Dark"⟩,
    ⟨"4607027661999", "Coffee 250g"⟩,
    ⟨"4607027663456", "Tea Black 25 bags"⟩ ]

namespace ApiClient

/-- The constructor. -/
def new : ApiClient where
  baseUrl := "http://leema.kz"
  authToken := .null
  localMode := true
  sampleProducts := seedProducts

/-- Method `setBaseUrl(url)`. -/
def setBaseUrl (c : ApiClient) (url : String) : ApiClient :=
  { c with baseUrl := url }

/-- Method `setAuthToken(token)`. -/
def setAuthToken (c : ApiClient) (token : JsValue) : ApiClient :=
  { c with authToken := token }

/-- Method `getHeaders()`.  On a truthy token it evaluates `this.authToken.substring(0, 20)` for
the console line, which raises when the token is not a string. -/
def getHeaders (c : ApiClient) (w : World) : Completion Headers × World :=
  let headers : Headers := [("Content-Type", "application/json"), ("Accept", "application/json")]
  if c.authToken.truthy then
    match c.authToken with
    | .str token =>
      (.returned (headers ++ [("X-API-Key", token)]),
        w.print .log "Token passed in X-API-Key header:")
    | _ => (.raised "TypeError: this.authToken.substring is not a function", w)
  else
    (.returned headers,
      w.print .warn "Token not set! Request will be made without authorization.")

/-- Method `logError(message)`. -/
def logError (_c : ApiClient) (message : String) (w : World) : World :=
  w.print .error message

/-- Method `getLocalProduct(barcode)`; the argument is `none` when the caller passes `undefined`. -/
def getLocalProduct (c : ApiClient) (barcode : Option String) (w : World) :
    Option ProductRecord × World :=
  let product := c.sampleProducts.find? (fun p => some p.barcode == barcode)
  (product, w.print .log ("Local product lookup for barcode " ++ barcode.getD "undefined" ++ ":"))

/-- The record of the store as the payload of a simulated response. -/
def recordPayload (p : ProductRecord) : Payload where
  barcode := some p.barcode
  sku_name := some p.sku_name
  access_token := .undefined
  user := none

/-- Method `simulateApiResponse(endpoint, options)`. -/
def simulateApiResponse (c : ApiClient) (endpoint : String) (options : RequestOptions)
    (w : World) : Completion (Option Payload) × World :=
  let w1 := w.print .log ("Local API Simulation: " ++ endpoint)
  if includes endpoint "/products/by-barcode/" then
    let barcode := pop (split endpoint '/')
    let r := c.getLocalProduct barcode w1
    (.returned (r.1.map recordPayload), r.2)
  else if endpoint == "/auth/token" && options.method == some "POST" then
    (.returned none, w1)
  else
    (.returned none, w1.print .warn ("Unhandled endpoint in local mode: " ++ endpoint))

/-- The object spread `{ headers: this.getHeaders(), ...options }` of `apiRequest`: an own
property `headers` of the options, be it `undefined`, replaces the computed headers. -/
def fetchOptions (headers : Headers) (options : RequestOptions) : RequestOptions where
  method := options.method
  headers := match options.headers with
    | some own => some own
    | none => some (some headers)
  body := options.body

/-- The `catch` block of `apiRequest`: it reads `error.message`, logs and returns `null`. -/
def catchBlock (c : ApiClient) (thrown : Thrown) (w : World) :
    Completion (Option Payload) × World :=
  match thrown with
  | .error message => (.returned none, c.logError ("Connection error: " ++ message) w)
  | .nullish => (.raised "TypeError: Cannot read properties of null (reading message)", w)

/-- Method `apiRequest(endpoint, options)`.  The call of `getHeaders` stands before the `try`. -/
def apiRequest (c : ApiClient) (fetch : Fetch) (endpoint : String) (options : RequestOptions)
    (w : World) : Completion (Option Payload) × World :=
  if c.localMode then
    c.simulateApiResponse endpoint options w
  else
    let url := c.baseUrl ++ endpoint
    let isProductLookup := includes endpoint "/products/by-barcode/"
    match c.getHeaders w with
    | (.raised error, w0) => (.raised error, w0)
    | (.returned headers, w0) =>
      let opts := fetchOptions headers options
      let w1 := w0.request url opts
      match fetch url opts with
      | .failure thrown => c.catchBlock thrown w1
      | .response status body =>
        let w2 := w1.print .log ("API Response [" ++ toString status ++ "]:")
        if status = 200 then
          match body with
          | .parsed data => (.returned data, w2)
          | .invalid thrown => c.catchBlock thrown w2
        else if status = 404 then
          (.returned none, w2)
        else if status = 401 ∨ status = 403 then
          let w3 := c.logError
            ("Authorization error (" ++ toString status ++ "). Please login again.") w2
          let w4 := if !isProductLookup then
              (w3.removeItem "auth_token").dispatchEvent "auth-error"
            else w3
          (.returned none, w4)
        else
          (.returned none, c.logError ("API Error: " ++ toString status) w2)

/-- Method `getProduct(barcode)`. -/
def getProduct (c : ApiClient) (fetch : Fetch) (barcode : String) (w : World) :
    Completion (Option Product) × World :=
  let r := c.apiRequest fetch ("/products/by-barcode/" ++ barcode)
    { method := some "GET", headers := none, body := none } w
  match r.1 with
  | .raised error => (.raised error, r.2)
  | .returned (some data) =>
    (.returned (some { barcode := data.barcode, name := data.sku_name }), r.2)
  | .returned none => (.returned none, r.2)

/-- Method `login(username, password)`. -/
def login (c : ApiClient) (fetch : Fetch) (username password : String) (w : World) :
    Completion (Option AuthResult) × ApiClient × World :=
  let r := c.apiRequest fetch "/auth/token"
    { method := some "POST", headers := none,
      body := some [("username", username), ("password", password)] } w
  match r.1 with
  | .raised error => (.raised error, c, r.2)
  | .returned (some data) =>
    if data.access_token.truthy then
      (.returned (some { token := data.access_token,
                         user := data.user.getD [("username", username)] }),
        c.setAuthToken data.access_token, r.2)
    else (.returned none, c, r.2)
  | .returned none => (.returned none, c, r.2)

/-- Method `addLocalProduct(product)`. -/
def addLocalProduct (c : ApiClient) (product : ProductArg) (w : World) : ApiClient × World :=
  match truthyValue product.barcode, truthyValue product.sku_name with
  | some barcode, some sku_name =>
    match c.sampleProducts.find? (fun p => p.barcode == barcode) with
    | some _ =>
      (c, w.print .warn ("Product with barcode " ++ barcode ++ " already exists"))
    | none =>
      ({ c with sampleProducts := c.sampleProducts ++ [⟨barcode, sku_name⟩] },
        w.print .log "Added product to local database:")
  | _, _ => (c, w.print .error "Invalid product data")

end ApiClient

/-- The client after a sequence of `addLocalProduct` calls, in order. -/
def ApiClient.addLocalProducts (c : ApiClient) (products : List ProductArg) (w : World) :
    ApiClient × World :=
  products.foldl (fun s p => s.1.addLocalProduct p s.2) (c, w)

/-- No two records of the store have the same barcode. -/
def uniqueBarcodes (store : List ProductRecord) : Prop :=
  (store.map (fun p => p.barcode)).Nodup

instance (store : List ProductRecord) : Decidable (uniqueBarcodes store) :=
  inferInstanceAs (Decidable (List.Nodup _))

/-- The transport answers every call with a response of the given status. -/
def answersStatus (fetch : Fetch) (status : Nat) : Prop :=
  ∀ url options, ∃ body, fetch url options = .response status body

/-- The world before anything happened. -/
def World.empty : World := ⟨[], [], [], []⟩

/-- The fresh client with the flag `localMode` switched off: real-network mode. -/
def ApiClient.real : ApiClient :=
  { ApiClient.new with localMode := false }

/-! ## Strings: facts -/

theorem truthyValue_eq_some {v : Option String} {s : String} :
    truthyValue v = some s ↔ v = some s ∧ s ≠ "" := by
  cases v with
  | none => simp [truthyValue]
  | some t =>
    by_cases h : t = ""
    · subst h; simp [truthyValue]; intro h; exact h.symm
    · simp only [truthyValue, h, if_false, Option.some.injEq]
      constructor
      · intro e; subst e; exact ⟨rfl, h⟩
      · intro e; exact e.1

theorem truthyValue_eq_none {v : Option String} :
    truthyValue v = none ↔ v = none ∨ v = some "" := by
  cases v with
  | none => simp [truthyValue]
  | some t =>
    by_cases h : t = ""
    · subst h; simp [truthyValue]
    · simp [truthyValue, h]

/-- The function `includesChars` decides that the pattern is a contiguous part of the string. -/
theorem includesChars_iff (s pat : List Char) : includesChars s pat = true ↔ pat <:+: s := by
  induction s with
  | nil =>
    cases pat <;> simp [includesChars, List.isPrefixOf]
  | cons c cs ih =>
    rw [includesChars, Bool.or_eq_true, ih, List.isPrefixOf_iff_prefix, List.infix_cons_iff]

theorem includes_append_left (pat rest : String) : includes (pat ++ rest) pat = true := by
  rw [includes, includesChars_iff, String.data_append]
  exact List.infix_append' [] pat.data rest.data

theorem splitChars_of_not_mem (sep : Char) (b : List Char) (h : sep ∉ b) :
    splitChars sep b = [b] := by
  induction b with
  | nil => rfl
  | cons c cs ih =>
    have hc : c ≠ sep := fun e => h (by simp [e])
    have hcs : sep ∉ cs := fun m => h (List.mem_cons_of_mem _ m)
    simp [splitChars, hc, ih hcs]

theorem splitChars_append_sep (sep : Char) (p b : List Char) :
    ∃ seg pre, splitChars sep (p ++ sep :: b) = (seg :: pre) ++ splitChars sep b := by
  induction p with
  | nil => exact ⟨[], [], by simp [splitChars]⟩
  | cons c cs ih =>
    obtain ⟨seg, pre, h⟩ := ih
    by_cases hc : c = sep
    · exact ⟨[], seg :: pre, by simp [splitChars, hc, ← h]⟩
    · exact ⟨c :: seg, pre, by simp [splitChars, hc, h]⟩

/-- The last segment of `p ++ "/" ++ b` is `b` when `b` has no separator. -/
theorem pop_split_append (p b : String) (sep : Char) (h : sep ∉ b.data) :
    pop (split (p ++ String.singleton sep ++ b) sep) = some b := by
  obtain ⟨seg, pre, e⟩ := splitChars_append_sep sep p.data b.data
  have hd : (p ++ String.singleton sep ++ b).data = p.data ++ sep :: b.data := by
    simp [String.data_append, String.singleton]
  rw [pop, split, hd, e, splitChars_of_not_mem sep b.data h, List.map_append]
  exact List.getLast?_concat _

/-! ## The fixture store: facts -/

namespace ApiClient

theorem find?_barcode_eq_none (store : List ProductRecord) (b : String) :
    store.find? (fun p => p.barcode == b) = none ↔ ∀ r ∈ store, r.barcode ≠ b := by
  simp [List.find?_eq_none]

/-- What `addLocalProduct` does to the client, by cases on its argument. -/
theorem addLocalProduct_fst (c : ApiClient) (p : ProductArg) (w : World) :
    (c.addLocalProduct p w).1 =
      match truthyValue p.barcode, truthyValue p.sku_name with
      | some b, some n =>
        match c.sampleProducts.find? (fun r => r.barcode == b) with
        | some _ => c
        | none => { c with sampleProducts := c.sampleProducts ++ [⟨b, n⟩] }
      | _, _ => c := by
  unfold addLocalProduct
  split
  · split <;> rfl
  · rfl

/-- A call of `addLocalProduct` keeps the store or appends one record with a new barcode; the
other fields of the client stay. -/
theorem addLocalProduct_cases (c : ApiClient) (p : ProductArg) (w : World) :
    (c.addLocalProduct p w).1 = c ∨
      ∃ b n, (∀ r ∈ c.sampleProducts, r.barcode ≠ b) ∧
        (c.addLocalProduct p w).1 = { c with sampleProducts := c.sampleProducts ++ [⟨b, n⟩] } := by
  rw [addLocalProduct_fst]
  split
  · next b n _ _ =>
    split
    · exact Or.inl rfl
    · next hnone => exact Or.inr ⟨b, n, (find?_barcode_eq_none _ _).1 hnone, rfl⟩
  · exact Or.inl rfl

/-- A sequence of `addLocalProduct` calls only appends to the store. -/
theorem addLocalProducts_store (ps : List ProductArg) (c : ApiClient) (w : World) :
    ∃ extra, (c.addLocalProducts ps w).1 =
      { c with sampleProducts := c.sampleProducts ++ extra } := by
  induction ps generalizing c w with
  | nil => exact ⟨[], by simp [addLocalProducts]⟩
  | cons p ps ih =>
    obtain ⟨extra, h⟩ := ih (c.addLocalProduct p w).1 (c.addLocalProduct p w).2
    have hstep : c.addLocalProducts (p :: ps) w =
        (c.addLocalProduct p w).1.addLocalProducts ps (c.addLocalProduct p w).2 := rfl
    rw [hstep, h]
    rcases addLocalProduct_cases c p w with e | ⟨b, n, _, e⟩
    · exact ⟨extra, by rw [e]⟩
    · exact ⟨⟨b, n⟩ :: extra, by rw [e]; simp⟩

theorem addLocalProduct_unique (c : ApiClient) (p : ProductArg) (w : World)
    (h : uniqueBarcodes c.sampleProducts) :
    uniqueBarcodes (c.addLocalProduct p w).1.sampleProducts := by
  rcases addLocalProduct_cases c p w with e | ⟨b, n, hb, e⟩
  · rw [e]; exact h
  · rw [e]
    unfold uniqueBarcodes at h ⊢
    simp only [List.map_append, List.map_cons, List.map_nil]
    refine List.Nodup.append h (List.nodup_singleton _) ?_
    intro x hx hx2
    simp only [List.mem_map] at hx
    obtain ⟨r, hr, rfl⟩ := hx
    simp only [List.mem_singleton] at hx2
    exact hb r hr hx2

theorem addLocalProducts_unique (ps : List ProductArg) (c : ApiClient) (w : World)
    (h : uniqueBarcodes c.sampleProducts) :
    uniqueBarcodes (c.addLocalProducts ps w).1.sampleProducts := by
  induction ps generalizing c w with
  | nil => exact h
  | cons p ps ih => exact ih _ _ (addLocalProduct_unique c p w h)

/-- In local mode `getProduct` is a scan of the store for the last segment of the endpoint. -/
theorem getProduct_local (c : ApiClient) (h : c.localMode = true) (fetch : Fetch) (b : String)
    (w : World) :
    (c.getProduct fetch b w).1 =
      .returned ((c.sampleProducts.find?
        (fun p => some p.barcode == pop (split ("/products/by-barcode/" ++ b) '/'))).map
        (fun p => ⟨some p.barcode, some p.sku_name⟩)) := by
  simp only [getProduct, apiRequest, h, if_true, simulateApiResponse, includes_append_left,
    getLocalProduct]
  cases c.sampleProducts.find?
      (fun p => some p.barcode == pop (split ("/products/by-barcode/" ++ b) '/')) <;>
    simp [recordPayload]

/-- The last segment of the lookup endpoint of a barcode without `/` is the barcode. -/
theorem pop_split_endpoint (b : String) (h : '/' ∉ b.data) :
    pop (split ("/products/by-barcode/" ++ b) '/') = some b :=
  pop_split_append "/products/by-barcode" b '/' h

/-- In local mode, a barcode without `/` that no record of the store has is not found. -/
theorem getProduct_local_absent (c : ApiClient) (h : c.localMode = true) (fetch : Fetch)
    (b : String) (hb : '/' ∉ b.data) (habs : ∀ r ∈ c.sampleProducts, r.barcode ≠ b) (w : World) :
    (c.getProduct fetch b w).1 = .returned none := by
  rw [getProduct_local c h, pop_split_endpoint b hb]
  have : c.sampleProducts.find? (fun p => some p.barcode == some b) = none := by
    simp only [List.find?_eq_none]
    intro r hr
    simpa using habs r hr
  rw [this]; rfl

end ApiClient

/-! ## Local mode: lookups and the fixture store -/

/-- C1, at a barcode with a `/`: in local mode with the seed store, `x/4607027662161` is the
barcode of no record, yet `getProduct` does not return `null` for it: the simulation looks up the
last `/`-separated segment of the endpoint, `4607027662161`, and the record of the milk comes
back. -/
theorem getProduct_slash_barcode_found (fetch : Fetch) (w : World) :
    (∀ r ∈ ApiClient.new.sampleProducts, r.barcode ≠ "x/4607027662161") ∧
      (ApiClient.new.getProduct fetch "x/4607027662161" w).1 =
        .returned (some ⟨some "4607027662161", some "Milk 3.2%"⟩) := by
  refine ⟨by decide, ?_⟩
  rw [ApiClient.getProduct_local _ rfl]
  decide

/-- C2: in local mode, from a client that holds the seed list, after any sequence of
`addLocalProduct` calls, `getProduct` of the barcode of a seed record returns that barcode with
the seeded name. -/
theorem getProduct_seed_record (c : ApiClient) (hmode : c.localMode = true)
    (hseed : c.sampleProducts = seedProducts) (ps : List ProductArg) (w w' : World)
    (fetch : Fetch) (r : ProductRecord) (hr : r ∈ seedProducts) :
    ((c.addLocalProducts ps w).1.getProduct fetch r.barcode w').1 =
      .returned (some ⟨some r.barcode, some r.sku_name⟩) := by
  obtain ⟨extra, e⟩ := ApiClient.addLocalProducts_store ps c w
  have hslash : ∀ x ∈ seedProducts, '/' ∉ x.barcode.data := by decide
  have hfind : ∀ x ∈ seedProducts,
      seedProducts.find? (fun p => some p.barcode == some x.barcode) = some x := by decide
  rw [e, ApiClient.getProduct_local { c with sampleProducts := c.sampleProducts ++ extra } hmode,
    ApiClient.pop_split_endpoint _ (hslash r hr)]
  simp only [hseed, List.find?_append, hfind r hr, Option.or_some, Option.map_some']

/-- An instance: the milk, after two `addLocalProduct` calls, one of them with the barcode of the
milk. -/
theorem getProduct_seed_record_witness :
    ((ApiClient.new.addLocalProducts
        [⟨some "4607027662161", some "Kefir", []⟩, ⟨some "123", some "Salt", []⟩]
        World.empty).1.getProduct (fun _ _ => .failure (.error "offline")) "4607027662161"
        World.empty).1 =
      .returned (some ⟨some "4607027662161", some "Milk 3.2%"⟩) :=
  getProduct_seed_record ApiClient.new rfl rfl _ _ _ _ ⟨"4607027662161", "Milk 3.2%"⟩ (by decide)

/-- C3: the seed list has no two records with the same barcode; `addLocalProduct` keeps that
property of a store, whatever its argument; so every store reached from the seed list by
`addLocalProduct` calls has it. -/
theorem uniqueBarcodes_invariant (c : ApiClient) (p : ProductArg) (ps : List ProductArg)
    (w : World) :
    uniqueBarcodes seedProducts ∧
      (uniqueBarcodes c.sampleProducts →
        uniqueBarcodes (c.addLocalProduct p w).1.sampleProducts) ∧
      (c.sampleProducts = seedProducts →
        uniqueBarcodes (c.addLocalProducts ps w).1.sampleProducts) := by
  have hseed : uniqueBarcodes seedProducts := by decide
  refine ⟨hseed, ApiClient.addLocalProduct_unique c p w, fun h => ?_⟩
  exact ApiClient.addLocalProducts_unique ps c w (h ▸ hseed)

/-- An instance: the fresh client, a product with a new barcode, and the same barcode twice. -/
theorem uniqueBarcodes_invariant_witness :
    uniqueBarcodes seedProducts ∧
      uniqueBarcodes
        (ApiClient.new.addLocalProduct ⟨some "123", some "Salt", []⟩ World.empty).1.sampleProducts ∧
      uniqueBarcodes
        (ApiClient.new.addLocalProducts
          [⟨some "123", some "Salt", []⟩, ⟨some "123", some "Sugar", []⟩]
          World.empty).1.sampleProducts :=
  have h := uniqueBarcodes_invariant ApiClient.new ⟨some "123", some "Salt", []⟩
    [⟨some "123", some "Salt", []⟩, ⟨some "123", some "Sugar", []⟩] World.empty
  ⟨h.1, h.2.1 (by decide), h.2.2 rfl⟩

/-- C4: `addLocalProduct` with an argument whose `barcode` or `sku_name` is absent or empty, or
whose barcode is the barcode of a record of the store, returns (it is a total function) and
leaves the store, and the whole client, as it was. -/
theorem addLocalProduct_rejected (c : ApiClient) (p : ProductArg) (w : World)
    (h : p.barcode = none ∨ p.barcode = some "" ∨ p.sku_name = none ∨ p.sku_name = some "" ∨
      ∃ r ∈ c.sampleProducts, p.barcode = some r.barcode) :
    (c.addLocalProduct p w).1.sampleProducts = c.sampleProducts ∧
      (c.addLocalProduct p w).1 = c := by
  suffices hc : (c.addLocalProduct p w).1 = c from ⟨by rw [hc], hc⟩
  rw [ApiClient.addLocalProduct_fst]
  split
  · next b n hb hn =>
    rw [truthyValue_eq_some] at hb hn
    split
    · rfl
    · next hnone =>
      exfalso
      rw [ApiClient.find?_barcode_eq_none] at hnone
      rcases h with h | h | h | h | ⟨r, hr, h⟩
      · rw [hb.1] at h; cases h
      · rw [hb.1] at h; exact hb.2 (Option.some.inj h)
      · rw [hn.1] at h; cases h
      · rw [hn.1] at h; exact hn.2 (Option.some.inj h)
      · rw [hb.1] at h; exact hnone r hr (Option.some.inj h).symm
  · rfl

/-- An instance: a second product with the barcode of the milk. -/
theorem addLocalProduct_rejected_witness :
    (ApiClient.new.addLocalProduct ⟨some "4607027662161", some "Kefir", []⟩
        World.empty).1.sampleProducts = seedProducts ∧
      (ApiClient.new.addLocalProduct ⟨some "4607027662161", some "Kefir", []⟩ World.empty).1 =
        ApiClient.new :=
  addLocalProduct_rejected ApiClient.new ⟨some "4607027662161", some "Kefir", []⟩ World.empty
    (Or.inr (Or.inr (Or.inr (Or.inr ⟨⟨"4607027662161", "Milk 3.2%"⟩, by decide, rfl⟩))))

/-- C10: `addLocalProduct` with a non-empty barcode that no record of the store has, and a
non-empty name, appends exactly the record of these two fields; a lookup of that barcode then
returns the new record, and a lookup of any other barcode returns what it returned before, the
first record of the old store with that barcode or `null`. -/
theorem addLocalProduct_then_lookup (c : ApiClient) (p : ProductArg) (w w' : World)
    (b n : String) (hb : p.barcode = some b) (hbne : b ≠ "") (hn : p.sku_name = some n)
    (hnne : n ≠ "") (hnew : ∀ r ∈ c.sampleProducts, r.barcode ≠ b) :
    (c.addLocalProduct p w).1.sampleProducts = c.sampleProducts ++ [⟨b, n⟩] ∧
      ((c.addLocalProduct p w).1.getLocalProduct (some b) w').1 = some ⟨b, n⟩ ∧
      ∀ x : Option String, x ≠ some b →
        ((c.addLocalProduct p w).1.getLocalProduct x w').1 = (c.getLocalProduct x w').1 ∧
        (c.getLocalProduct x w').1 = c.sampleProducts.find? (fun r => some r.barcode == x) := by
  have hstore : (c.addLocalProduct p w).1 =
      { c with sampleProducts := c.sampleProducts ++ [⟨b, n⟩] } := by
    rw [ApiClient.addLocalProduct_fst, truthyValue_eq_some.2 ⟨hb, hbne⟩,
      truthyValue_eq_some.2 ⟨hn, hnne⟩]
    simp only [(ApiClient.find?_barcode_eq_none _ _).2 hnew]
  rw [hstore]
  refine ⟨rfl, ?_, ?_⟩
  · have hnone : c.sampleProducts.find? (fun r => some r.barcode == some b) = none := by
      simp only [List.find?_eq_none]
      intro r hr
      simpa using hnew r hr
    show (c.sampleProducts ++ [ProductRecord.mk b n]).find?
      (fun r => some r.barcode == some b) = some ⟨b, n⟩
    rw [List.find?_append, hnone]
    simp
  · intro x hx
    refine ⟨?_, rfl⟩
    have hne : (some b == x) = false := by
      simpa using fun e => hx e.symm
    show (c.sampleProducts ++ [ProductRecord.mk b n]).find? (fun r => some r.barcode == x) =
      c.sampleProducts.find? (fun r => some r.barcode == x)
    rw [List.find?_append]
    simp [List.find?_cons, hne]

/-- An instance: the fresh client and a product with a new barcode and a third property. -/
theorem addLocalProduct_then_lookup_witness :
    (ApiClient.new.addLocalProduct ⟨some "123", some "Salt", [("price", "10")]⟩
        World.empty).1.sampleProducts = seedProducts ++ [⟨"123", "Salt"⟩] ∧
      ((ApiClient.new.addLocalProduct ⟨some "123", some "Salt", [("price", "10")]⟩
        World.empty).1.getLocalProduct (some "123") World.empty).1 = some ⟨"123", "Salt"⟩ ∧
      ∀ x : Option String, x ≠ some "123" →
        ((ApiClient.new.addLocalProduct ⟨some "123", some "Salt", [("price", "10")]⟩
          World.empty).1.getLocalProduct x World.empty).1 =
            (ApiClient.new.getLocalProduct x World.empty).1 ∧
        (ApiClient.new.getLocalProduct x World.empty).1 =
          ApiClient.new.sampleProducts.find? (fun r => some r.barcode == x) :=
  addLocalProduct_then_lookup ApiClient.new ⟨some "123", some "Salt", [("price", "10")]⟩
    World.empty World.empty "123" "Salt" rfl (by decide) rfl (by decide) (by decide)

/-! ## Headers -/

/-- On a token that is a string or falsy `getHeaders` returns, and it touches the console only. -/
theorem ApiClient.getHeaders_returns (c : ApiClient) (w : World)
    (h : c.authToken.stringOrFalsy = true) :
    ∃ headers w0, c.getHeaders w = (.returned headers, w0) ∧ w0.requests = w.requests ∧
      w0.localStorage = w.localStorage ∧ w0.events = w.events := by
  unfold ApiClient.getHeaders
  cases ht : c.authToken <;> rw [ht] at h <;>
    simp only [JsValue.stringOrFalsy, JsValue.truthy] at h ⊢ <;>
    split_ifs <;>
    first
      | exact ⟨_, _, rfl, rfl, rfl, rfl⟩
      | simp_all

/-- On a truthy token that is not a string `getHeaders` raises, and so does every request of
real-network mode, before any transport call. -/
theorem ApiClient.apiRequest_raises (c : ApiClient) (hmode : c.localMode = false)
    (h : c.authToken.stringOrFalsy = false) (fetch : Fetch) (endpoint : String)
    (options : RequestOptions) (w : World) :
    c.apiRequest fetch endpoint options w =
      (.raised "TypeError: this.authToken.substring is not a function", w) := by
  have hg : c.getHeaders w =
      (.raised "TypeError: this.authToken.substring is not a function", w) := by
    unfold ApiClient.getHeaders
    cases ht : c.authToken <;> rw [ht] at h <;>
      simp only [JsValue.stringOrFalsy, JsValue.truthy] at h ⊢ <;> simp_all
  simp only [ApiClient.apiRequest, hmode, Bool.false_eq_true, if_false, hg]

/-- C7 fails at the empty token: after `setAuthToken("")` the headers are the two fixed entries
and carry no credential header, the empty string being falsy in the test of `getHeaders`. -/
theorem getHeaders_empty_token_omitted :
    ((ApiClient.new.setAuthToken (.str "")).getHeaders World.empty).1 =
        .returned [("Content-Type", "application/json"), ("Accept", "application/json")] ∧
      ¬ ∃ headers, ((ApiClient.new.setAuthToken (.str "")).getHeaders World.empty).1 =
        .returned headers ∧ ("X-API-Key", "") ∈ headers := by
  have h : ((ApiClient.new.setAuthToken (.str "")).getHeaders World.empty).1 =
      .returned [("Content-Type", "application/json"), ("Accept", "application/json")] := by
    decide
  refine ⟨h, ?_⟩
  rintro ⟨headers, e, m⟩
  rw [h] at e
  cases e
  revert m
  decide

/-- C7, amended: after `setAuthToken(X)` with a non-empty `X` the headers are `Content-Type` and
`Accept`, both `application/json`, and `X-API-Key` with value `X`; after `setAuthToken("")`, and
while the token is `null`, they are the two fixed entries alone. -/
theorem getHeaders_after_setAuthToken (c : ApiClient) (X : String) (w : World) :
    (X ≠ "" → ((c.setAuthToken (.str X)).getHeaders w).1 =
        .returned [("Content-Type", "application/json"), ("Accept", "application/json"),
          ("X-API-Key", X)]) ∧
      ((c.setAuthToken (.str "")).getHeaders w).1 =
        .returned [("Content-Type", "application/json"), ("Accept", "application/json")] ∧
      (c.authToken = .null → (c.getHeaders w).1 =
        .returned [("Content-Type", "application/json"), ("Accept", "application/json")]) := by
  refine ⟨fun hX => ?_, ?_, fun hnone => ?_⟩
  · simp [ApiClient.getHeaders, ApiClient.setAuthToken, JsValue.truthy, hX]
  · simp [ApiClient.getHeaders, ApiClient.setAuthToken, JsValue.truthy]
  · simp [ApiClient.getHeaders, hnone, JsValue.truthy]

/-- An instance: the token `X` on the fresh client. -/
theorem getHeaders_after_setAuthToken_witness :
    ((ApiClient.new.setAuthToken (.str "X")).getHeaders World.empty).1 =
        .returned [("Content-Type", "application/json"), ("Accept", "application/json"),
          ("X-API-Key", "X")] ∧
      (ApiClient.new.getHeaders World.empty).1 =
        .returned [("Content-Type", "application/json"), ("Accept", "application/json")] :=
  have h := getHeaders_after_setAuthToken ApiClient.new "X" World.empty
  ⟨h.1 (by decide), h.2.2 rfl⟩

/-! ## Request dispatch -/

/-- In real-network mode, with a token that is a string or falsy, `apiRequest` makes one
transport call, and when the thrown values carry a message it returns: the parsed body when the
status is 200 and the body parses, `null` for every other status and for a thrown error. -/
theorem ApiClient.apiRequest_real_classified (c : ApiClient) (hmode : c.localMode = false)
    (htoken : c.authToken.stringOrFalsy = true) (fetch : Fetch) (endpoint : String)
    (options : RequestOptions) (w : World) :
    ∃ headers, (c.getHeaders w).1 = .returned headers ∧
      (c.apiRequest fetch endpoint options w).2.requests =
        w.requests ++ [(c.baseUrl ++ endpoint, fetchOptions headers options)] ∧
      (∀ data, fetch (c.baseUrl ++ endpoint) (fetchOptions headers options) =
          .response 200 (.parsed data) →
        (c.apiRequest fetch endpoint options w).1 = .returned data) ∧
      (∀ status body, status ≠ 200 →
        fetch (c.baseUrl ++ endpoint) (fetchOptions headers options) = .response status body →
        (c.apiRequest fetch endpoint options w).1 = .returned none) ∧
      (∀ message, fetch (c.baseUrl ++ endpoint) (fetchOptions headers options) =
          .failure (.error message) →
        (c.apiRequest fetch endpoint options w).1 = .returned none) ∧
      (∀ message, fetch (c.baseUrl ++ endpoint) (fetchOptions headers options) =
          .response 200 (.invalid (.error message)) →
        (c.apiRequest fetch endpoint options w).1 = .returned none) := by
  obtain ⟨headers, w0, hg, hreq, _, _⟩ := c.getHeaders_returns w htoken
  refine ⟨headers, by rw [hg], ?_, ?_, ?_, ?_, ?_⟩
  · simp only [apiRequest, hmode, Bool.false_eq_true, if_false, hg]
    rcases fetch (c.baseUrl ++ endpoint) (fetchOptions headers options) with
      (message | _) | ⟨status, (message | _) | data⟩ <;> simp only <;>
      (try split_ifs) <;>
      simp [catchBlock, logError, World.print, World.request, World.removeItem,
        World.dispatchEvent, hreq]
  · intro data h
    simp [apiRequest, hmode, hg, h]
  · intro status body hs h
    simp only [apiRequest, hmode, Bool.false_eq_true, if_false, hg, h, hs]
    split_ifs <;> rfl
  · intro message h
    simp [apiRequest, hmode, hg, h, catchBlock]
  · intro message h
    simp [apiRequest, hmode, hg, h, catchBlock]

/-- C5, at a token that is not a string: in real-network mode a transport answers 200 with the
body `{access_token: 12345}`; `login` stores the number as the token, and the next `apiRequest`
does not complete with `null` or a body: it raises the TypeError of `getHeaders`, whose call
stands before the `try`, and no transport call is made.  A transport call that throws `null`
makes `apiRequest` raise too, from the `catch` block. -/
theorem apiRequest_raises_after_numeric_token :
    (ApiClient.real.login
        (fun _ _ => .response 200 (.parsed (some ⟨none, none, .num 12345, none⟩)))
        "u" "p" World.empty).2.1.authToken = .num 12345 ∧
      ((ApiClient.real.login
        (fun _ _ => .response 200 (.parsed (some ⟨none, none, .num 12345, none⟩)))
        "u" "p" World.empty).2.1.apiRequest
        (fun _ _ => .response 200 (.parsed (some ⟨none, none, .num 12345, none⟩)))
        "/products/by-barcode/1" ⟨some "GET", none, none⟩ World.empty) =
        (.raised "TypeError: this.authToken.substring is not a function", World.empty) ∧
      (ApiClient.real.apiRequest (fun _ _ => .failure .nullish)
        "/products/by-barcode/1" ⟨some "GET", none, none⟩ World.empty).1 =
        .raised "TypeError: Cannot read properties of null (reading message)" := by
  decide

/-- C6: in real-network mode, with a token on which `getHeaders` returns (a string or a falsy
value), when the transport answers 401 or 403, `apiRequest` returns `null`; for an endpoint
without `/products/by-barcode/` it removes `auth_token` from `localStorage` and dispatches
`auth-error`, for an endpoint with it the storage and the events stay as they were.  So
`getProduct` never clears the credentials and `login` always does. -/
theorem apiRequest_unauthorized (c : ApiClient) (hmode : c.localMode = false)
    (htoken : c.authToken.stringOrFalsy = true) (fetch : Fetch)
    (status : Nat) (hs : status = 401 ∨ status = 403) (hf : answersStatus fetch status)
    (endpoint : String) (options : RequestOptions) (b username password : String) (w : World) :
    (includes endpoint "/products/by-barcode/" = false →
        (c.apiRequest fetch endpoint options w).1 = .returned none ∧
        (c.apiRequest fetch endpoint options w).2.localStorage =
          w.localStorage.filter (fun e => e.1 != "auth_token") ∧
        (c.apiRequest fetch endpoint options w).2.events = w.events ++ ["auth-error"]) ∧
      (includes endpoint "/products/by-barcode/" = true →
        (c.apiRequest fetch endpoint options w).1 = .returned none ∧
        (c.apiRequest fetch endpoint options w).2.localStorage = w.localStorage ∧
        (c.apiRequest fetch endpoint options w).2.events = w.events) ∧
      ((c.getProduct fetch b w).1 = .returned none ∧
        (c.getProduct fetch b w).2.localStorage = w.localStorage ∧
        (c.getProduct fetch b w).2.events = w.events) ∧
      ((c.login fetch username password w).1 = .returned none ∧
        (c.login fetch username password w).2.2.localStorage =
          w.localStorage.filter (fun e => e.1 != "auth_token") ∧
        (c.login fetch username password w).2.2.events = w.events ++ ["auth-error"]) := by
  obtain ⟨headers, w0, hg, _, hst, hev⟩ := c.getHeaders_returns w htoken
  have key : ∀ (e : String) (o : RequestOptions),
      (c.apiRequest fetch e o w).1 = .returned none ∧
      (c.apiRequest fetch e o w).2.localStorage =
        (if includes e "/products/by-barcode/" then w.localStorage
          else w.localStorage.filter (fun x => x.1 != "auth_token")) ∧
      (c.apiRequest fetch e o w).2.events =
        (if includes e "/products/by-barcode/" then w.events
          else w.events ++ ["auth-error"]) := by
    intro e o
    obtain ⟨body, hbody⟩ := hf (c.baseUrl ++ e) (ApiClient.fetchOptions headers o)
    simp only [ApiClient.apiRequest, hmode, Bool.false_eq_true, if_false, hg, hbody]
    rcases hs with rfl | rfl <;>
      cases hinc : includes e "/products/by-barcode/" <;>
      simp [ApiClient.logError, World.print, World.request, World.removeItem,
        World.dispatchEvent, hst, hev]
  have hlogin : includes "/auth/token" "/products/by-barcode/" = false := by decide
  refine ⟨fun h => ?_, fun h => ?_, ?_, ?_⟩
  · simpa [h] using key endpoint options
  · simpa [h] using key endpoint options
  · have k := key ("/products/by-barcode/" ++ b) ⟨some "GET", none, none⟩
    simp only [includes_append_left, if_true] at k
    have hg : c.getProduct fetch b w =
        (.returned none, (c.apiRequest fetch ("/products/by-barcode/" ++ b)
          ⟨some "GET", none, none⟩ w).2) := by
      simp only [ApiClient.getProduct, k.1]
    rw [hg]
    exact ⟨rfl, k.2.1, k.2.2⟩
  · have k := key "/auth/token"
      ⟨some "POST", none, some [("username", username), ("password", password)]⟩
    simp only [hlogin, Bool.false_eq_true, if_false] at k
    have hl : c.login fetch username password w =
        (.returned none, c, (c.apiRequest fetch "/auth/token"
          ⟨some "POST", none, some [("username", username), ("password", password)]⟩ w).2) := by
      simp only [ApiClient.login, k.1]
    rw [hl]
    exact ⟨rfl, k.2.1, k.2.2⟩

/-- An instance: a transport that answers 401, with a stored credential. -/
theorem apiRequest_unauthorized_witness :
    (ApiClient.real.login (fun _ _ => .response 401 (.invalid (.error "no body"))) "u" "p"
        ⟨[], [("auth_token", "tok"), ("theme", "dark")], [], []⟩).2.2.localStorage =
        [("theme", "dark")] ∧
      (ApiClient.real.getProduct (fun _ _ => .response 401 (.invalid (.error "no body"))) "1"
        ⟨[], [("auth_token", "tok"), ("theme", "dark")], [], []⟩).2.localStorage =
        [("auth_token", "tok"), ("theme", "dark")] :=
  have h := apiRequest_unauthorized ApiClient.real rfl rfl
    (fun _ _ => .response 401 (.invalid (.error "no body"))) 401 (Or.inl rfl)
    (fun _ _ => ⟨_, rfl⟩) "/auth/token" ⟨none, none, none⟩ "1" "u" "p"
    ⟨[], [("auth_token", "tok"), ("theme", "dark")], [], []⟩
  ⟨h.2.2.2.2.1, h.2.2.1.2.1⟩

/-! ## Login -/

/-- C8 fails at an empty access token: in real-network mode, when the transport answers 200 with
the payload `{access_token: "", user: {username: "u"}}`, `login` returns `null` and stores
nothing, the empty string being falsy in the test of `login`. -/
theorem login_empty_access_token_rejected :
    (ApiClient.real.login
        (fun _ _ =>
          .response 200 (.parsed (some ⟨none, none, .str "", some [("username", "u")]⟩)))
        "u" "p" World.empty).1 = .returned none ∧
      (ApiClient.real.login
        (fun _ _ =>
          .response 200 (.parsed (some ⟨none, none, .str "", some [("username", "u")]⟩)))
        "u" "p" World.empty).1 ≠ .returned (some ⟨.str "", [("username", "u")]⟩) ∧
      (ApiClient.real.login
        (fun _ _ =>
          .response 200 (.parsed (some ⟨none, none, .str "", some [("username", "u")]⟩)))
        "u" "p" World.empty).2.1.authToken = .null := by
  decide

/-- C8, amended: in real-network mode, with a token on which `getHeaders` returns (a string or a
falsy value), when the transport answers 200 with a parsed body, `login` stores a non-empty access
token `t` of the payload as `authToken` and returns `{token: t, user}`, the user being the `user`
object of the payload if there is one and `{username}` otherwise; when the body is `null`, or its
access token is absent, `null` or empty (or `false` or `0`), `login` returns `null` and leaves the
client as it was.  A truthy access token that is not a string is stored and returned as it is. -/
theorem login_real_result (c : ApiClient) (hmode : c.localMode = false)
    (htoken : c.authToken.stringOrFalsy = true) (fetch : Fetch)
    (username password : String) (w : World) (data : Option Payload)
    (hf : ∀ url options, fetch url options = .response 200 (.parsed data)) :
    (∀ p t, data = some p → p.access_token = .str t → t ≠ "" →
        (c.login fetch username password w).1 =
          .returned (some ⟨.str t, match p.user with
            | some u => u
            | none => [("username", username)]⟩) ∧
        (c.login fetch username password w).2.1 = { c with authToken := .str t }) ∧
      ((data = none ∨ ∃ p, data = some p ∧
          (p.access_token = .undefined ∨ p.access_token = .null ∨ p.access_token = .str "" ∨
            p.access_token = .bool false ∨ p.access_token = .num 0)) →
        (c.login fetch username password w).1 = .returned none ∧
        (c.login fetch username password w).2.1 = c) ∧
      (∀ p, data = some p → p.access_token.truthy = true →
        (c.login fetch username password w).1 =
          .returned (some ⟨p.access_token, match p.user with
            | some u => u
            | none => [("username", username)]⟩) ∧
        (c.login fetch username password w).2.1 = { c with authToken := p.access_token }) := by
  obtain ⟨headers, w0, hg, _, _, _⟩ := c.getHeaders_returns w htoken
  have hr : (c.apiRequest fetch "/auth/token"
      ⟨some "POST", none, some [("username", username), ("password", password)]⟩ w).1 =
      .returned data := by
    simp only [ApiClient.apiRequest, hmode, Bool.false_eq_true, if_false, hg, hf, if_true]
  have hstored : ∀ p, data = some p → p.access_token.truthy = true →
      (c.login fetch username password w).1 =
        .returned (some ⟨p.access_token, match p.user with
          | some u => u
          | none => [("username", username)]⟩) ∧
      (c.login fetch username password w).2.1 = { c with authToken := p.access_token } := by
    intro p hp htr
    subst hp
    have hl : c.login fetch username password w =
        (.returned (some ⟨p.access_token, p.user.getD [("username", username)]⟩),
          c.setAuthToken p.access_token,
          (c.apiRequest fetch "/auth/token"
            ⟨some "POST", none, some [("username", username), ("password", password)]⟩ w).2) := by
      simp only [ApiClient.login, hr, htr, if_true]
    rw [hl]
    refine ⟨?_, rfl⟩
    cases p.user <;> rfl
  refine ⟨fun p t hp ht hne => ?_, fun h => ?_, hstored⟩
  · have htr : p.access_token.truthy = true := by
      rw [ht]
      simpa [JsValue.truthy] using hne
    have h := hstored p hp htr
    rw [ht] at h
    exact h
  · have hl : c.login fetch username password w =
        (.returned none, c, (c.apiRequest fetch "/auth/token"
          ⟨some "POST", none, some [("username", username), ("password", password)]⟩ w).2) := by
      rcases h with h | ⟨p, hp, h⟩
      · subst h
        simp only [ApiClient.login, hr]
      · subst hp
        have hfa : p.access_token.truthy = false := by
          rcases h with h | h | h | h | h <;> rw [h] <;> rfl
        simp only [ApiClient.login, hr, hfa, Bool.false_eq_true, if_false]
    rw [hl]
    exact ⟨rfl, rfl⟩

/-- An instance: the payload `{access_token: "tok", user: {username: "u"}}`; the token `tok` is
stored and `{token: "tok", user: {username: "u"}}` is returned. -/
theorem login_real_result_witness :
    (ApiClient.real.login
        (fun _ _ =>
          .response 200 (.parsed (some ⟨none, none, .str "tok", some [("username", "u")]⟩)))
        "u" "p" World.empty).1 = .returned (some ⟨.str "tok", [("username", "u")]⟩) ∧
      (ApiClient.real.login
        (fun _ _ =>
          .response 200 (.parsed (some ⟨none, none, .str "tok", some [("username", "u")]⟩)))
        "u" "p" World.empty).2.1 = { ApiClient.real with authToken := .str "tok" } :=
  (login_real_result ApiClient.real rfl rfl
    (fun _ _ =>
      .response 200 (.parsed (some ⟨none, none, .str "tok", some [("username", "u")]⟩)))
    "u" "p" World.empty _ (fun _ _ => rfl)).1 _ "tok" rfl rfl (by decide)

/-! ## Local mode: dispatch -/

/-- C9: in local mode `apiRequest` is `simulateApiResponse`: it makes no transport call, and its
result depends neither on the transport nor on `baseUrl` or `authToken`; `login` returns `null`
and leaves the client as it was; an endpoint without `/products/by-barcode/` yields `null`. -/
theorem apiRequest_local (c : ApiClient) (hmode : c.localMode = true) (fetch : Fetch)
    (endpoint : String) (options : RequestOptions) (username password : String) (w : World) :
    c.apiRequest fetch endpoint options w = c.simulateApiResponse endpoint options w ∧
      (c.apiRequest fetch endpoint options w).2.requests = w.requests ∧
      (∀ (c' : ApiClient) (fetch' : Fetch), c'.localMode = true →
        c'.sampleProducts = c.sampleProducts →
        c'.apiRequest fetch' endpoint options w = c.apiRequest fetch endpoint options w) ∧
      ((c.login fetch username password w).1 = .returned none ∧
        (c.login fetch username password w).2.1 = c ∧
        (c.login fetch username password w).2.2.requests = w.requests) ∧
      (includes endpoint "/products/by-barcode/" = false →
        (c.apiRequest fetch endpoint options w).1 = .returned none) := by
  have hsim : ∀ (d : ApiClient) (f : Fetch) (e : String) (o : RequestOptions),
      d.localMode = true → d.apiRequest f e o w = d.simulateApiResponse e o w := by
    intro d f e o hd
    simp only [ApiClient.apiRequest, hd, if_true]
  have hreq : ∀ (e : String) (o : RequestOptions),
      (c.simulateApiResponse e o w).2.requests = w.requests := by
    intro e o
    simp only [ApiClient.simulateApiResponse, ApiClient.getLocalProduct]
    split_ifs <;> rfl
  have hnone : ∀ (e : String) (o : RequestOptions), includes e "/products/by-barcode/" = false →
      (c.simulateApiResponse e o w).1 = .returned none := by
    intro e o h
    simp only [ApiClient.simulateApiResponse, h, Bool.false_eq_true, if_false]
    split_ifs <;> rfl
  have hlogin : includes "/auth/token" "/products/by-barcode/" = false := by decide
  refine ⟨hsim c fetch endpoint options hmode, ?_, ?_, ?_, ?_⟩
  · rw [hsim c fetch endpoint options hmode]
    exact hreq endpoint options
  · intro c' fetch' hmode' hstore
    rw [hsim c' fetch' endpoint options hmode', hsim c fetch endpoint options hmode]
    simp only [ApiClient.simulateApiResponse, ApiClient.getLocalProduct, hstore]
  · have hl : c.login fetch username password w =
        (.returned none, c, (c.simulateApiResponse "/auth/token"
          ⟨some "POST", none, some [("username", username), ("password", password)]⟩ w).2) := by
      simp only [ApiClient.login, hsim c fetch _ _ hmode, hnone _ _ hlogin]
    rw [hl]
    exact ⟨rfl, rfl, hreq _ _⟩
  · intro h
    rw [hsim c fetch endpoint options hmode]
    exact hnone endpoint options h

/-- An instance: the fresh client, where `login` is not served. -/
theorem apiRequest_local_witness :
    (ApiClient.new.login
        (fun _ _ => .response 200 (.parsed (some ⟨none, none, .str "tok", none⟩)))
        "u" "p" World.empty).1 = .returned none ∧
      (ApiClient.new.apiRequest
        (fun _ _ => .response 200 (.parsed (some ⟨none, none, .str "tok", none⟩)))
        "/products" ⟨some "GET", none, none⟩ World.empty).1 = .returned none :=
  have h := apiRequest_local ApiClient.new rfl
    (fun _ _ => .response 200 (.parsed (some ⟨none, none, .str "tok", none⟩)))
    "/products" ⟨some "GET", none, none⟩ "u" "p" World.empty
  ⟨h.2.2.2.1.1, h.2.2.2.2 (by decide)⟩
